import Mathlib

/-!
Verification development for the newsbot repository: a shallow embedding of
the frontend view logic (badge classes, date normalization, pagination,
facts carousel, spectrum positioning, query-string construction) and of
the spec-described backend pipeline (dedup store, annotation validation,
ingestion mutual exclusion), with theorems settling the spec claims.
-/

namespace NewsBot

/-! ### Badge classes (ArticleCard.tsx / article page)

`biasClasses` and `toneClasses` are the explicit record lookups from the
source; `getBiasClass` / `getToneClass` mirror the JS functions, including
the falsy check that treats the empty string like `null`. -/

def knownBiases : List String :=
  ["left", "center-left", "center", "center-right", "right"]

def knownTones : List String :=
  ["positive", "neutral", "negative", "alarming"]

def biasClasses (b : String) : Option String :=
  if b = "left" then some "badge-bias-left"
  else if b = "center-left" then some "badge-bias-center-left"
  else if b = "center" then some "badge-bias-center"
  else if b = "center-right" then some "badge-bias-center-right"
  else if b = "right" then some "badge-bias-right"
  else none

def toneClasses (t : String) : Option String :=
  if t = "positive" then some "badge-tone-positive"
  else if t = "neutral" then some "badge-tone-neutral"
  else if t = "negative" then some "badge-tone-negative"
  else if t = "alarming" then some "badge-tone-alarming"
  else none

def getBiasClass (bias : Option String) : String :=
  match bias with
  | none => "badge-bias-center"
  | some b => if b = "" then "badge-bias-center" else (biasClasses b).getD "badge-bias-center"

def getToneClass (tone : Option String) : String :=
  match tone with
  | none => "badge-tone-neutral"
  | some t => if t = "" then "badge-tone-neutral" else (toneClasses t).getD "badge-tone-neutral"

/-! ### UTC date normalization (parseUTCDate)

The JS function decides whether to append a `Z` suffix before handing the
string to `new Date`; we model the string that reaches the `Date`
constructor. `String.endsWith`, `includes('+')` and `includes('-', 10)`
are modelled on the character list of the string. -/

def jsEndsWith (s suffix : String) : Bool :=
  suffix.toList.isSuffixOf s.toList

def parseUTCDate (s : String) : String :=
  if !(jsEndsWith s "Z") && !(s.toList.contains '+') && !((s.toList.drop 10).contains '-')
  then s ++ "Z"
  else s

/-! ### Media bias spectrum (MediaBiasSpectrum component)

`getSpectrumPosition` maps a per-source bias score (numeric scale -2..+2,
see `SourceStats.bias_score` in api.ts) to a percentage; the rendered
bubble's CSS `left` offset clamps it with `max(5, min(95, position))`. -/

def getSpectrumPosition (biasScore : ℚ) : ℚ :=
  ((biasScore + 2) / 4) * 100

def bubbleLeftPercent (position : ℚ) : ℚ :=
  max 5 (min 95 position)

/-! ### Article list rendering (ArticleList component)

The component returns early: a loading skeleton while `isLoading`, an
explicit empty-state card when the article list is empty, and only
otherwise the result counter, the article cards and (when more than one
page exists) the pagination controls. -/

structure FArticle where
  id : String
  title : String

inductive ArticleListView where
  | loadingSkeleton : ArticleListView
  | emptyState (message hint : String) : ArticleListView
  | results (shownCount total : Nat) (cardIds : List String)
      (pagination : Option (Nat × Nat)) : ArticleListView
deriving DecidableEq

def renderArticleList (articles : List FArticle) (total page totalPages : Nat)
    (isLoading : Bool) : ArticleListView :=
  if isLoading then .loadingSkeleton
  else if articles.length = 0 then
    .emptyState "No se encontraron noticias"
      "Intenta ajustar los filtros o realizar una nueva búsqueda"
  else
    .results articles.length total (articles.map (fun a => a.id))
      (if 1 < totalPages then some (page, totalPages) else none)

/-! ### Facts request construction (api.ts getFacts and Facts.tsx queryFn)

`getFacts` serializes only `date_from`, `date_to` and `refresh` into the
query string of `GET /facts`; the Facts page passes an object carrying
only an `hours` property, which `getFacts` never reads. -/

structure FactsParams where
  date_from : Option String
  date_to : Option String
  refresh : Bool
  hours : Option Nat

def getFactsQuery (p : FactsParams) : List (String × String) :=
  (match p.date_from with
   | some v => [("date_from", v)]
   | none => []) ++
  (match p.date_to with
   | some v => [("date_to", v)]
   | none => []) ++
  (if p.refresh then [("refresh", "true")] else [])

def factsPageQuery (hours : Nat) : List (String × String) :=
  getFactsQuery { date_from := none, date_to := none, refresh := false, hours := some hours }

/-! ### Pagination window (ArticleList component)

The widget renders `min(5, totalPages)` page-number buttons whose values
follow the source's four-branch window computation, plus Previous/Next
buttons disabled at the boundaries. -/

def pageWindow (page totalPages : Nat) : List Nat :=
  (List.range (min 5 totalPages)).map (fun i =>
    if totalPages ≤ 5 then i + 1
    else if page ≤ 3 then i + 1
    else if totalPages - 2 ≤ page then totalPages - 4 + i
    else page - 2 + i)

def prevDisabled (page : Nat) : Bool :=
  decide (page ≤ 1)

def nextDisabled (page totalPages : Nat) : Bool :=
  decide (totalPages ≤ page)

/-! ### Facts carousel navigation (Facts.tsx)

The carousel index starts at 0; ArrowLeft / the Previous button / a
rightward swipe move it with `max(0, i - 1)`, ArrowRight / Next / a
leftward swipe with `min(facts.length - 1, i + 1)`; a swipe only counts
when its horizontal travel exceeds 50 pixels. -/

inductive CarouselEvent where
  | arrowLeft : CarouselEvent
  | arrowRight : CarouselEvent
  | prevClick : CarouselEvent
  | nextClick : CarouselEvent
  | swipe (startX endX : Int) : CarouselEvent

def carouselStep (len i : Int) : CarouselEvent → Int
  | .arrowLeft => max 0 (i - 1)
  | .arrowRight => min (len - 1) (i + 1)
  | .prevClick => max 0 (i - 1)
  | .nextClick => min (len - 1) (i + 1)
  | .swipe sx ex =>
    if 50 < |sx - ex| then
      if 0 < sx - ex then min (len - 1) (i + 1) else max 0 (i - 1)
    else i

def runCarousel (len : Int) (evs : List CarouselEvent) : Int :=
  evs.foldl (carouselStep len) 0

/-! ### Article Store and ingestion dedup -/

structure CanonicalArticle where
  external_id : Option String
  url : String
  title : String
deriving DecidableEq

/-- Modelled from the spec: the backend Article Store and the Ingestion
Orchestrator's dedup step are not part of the frontend sources. Per §4.2,
an incoming canonical article is discarded if an Article with the same
external_id exists, or (when external_id is absent) an Article with the
same URL exists. -/
def isDuplicate (store : List CanonicalArticle) (a : CanonicalArticle) : Bool :=
  match a.external_id with
  | some e => store.any (fun b => b.external_id == some e)
  | none => store.any (fun b => b.url == a.url)

/-- Modelled from the spec: the persist step (§4.2) inserts a surviving
novel article at the end of the store, in arrival order. -/
def ingestArticle (store : List CanonicalArticle) (a : CanonicalArticle) :
    List CanonicalArticle :=
  if isDuplicate store a then store else store ++ [a]

/-- Modelled from the spec: one ingestion run processes the fetched batch
in arrival order, deduplicating each incoming article before persisting. -/
def ingestRun (store : List CanonicalArticle) (batch : List CanonicalArticle) :
    List CanonicalArticle :=
  batch.foldl ingestArticle store

/-- The stores reachable from an empty Article Store by ingestion runs. -/
inductive ReachableStore : List CanonicalArticle → Prop where
  | empty : ReachableStore []
  | run (store batch : List CanonicalArticle) :
      ReachableStore store → ReachableStore (ingestRun store batch)

/-- The uniqueness property exactly as the claim states it: pairwise, the
external_ids differ whenever both are present, and the URLs always differ. -/
def claimedUnique (store : List CanonicalArticle) : Prop :=
  store.Pairwise (fun a b =>
    (∀ e, a.external_id = some e → b.external_id ≠ some e) ∧ a.url ≠ b.url)

/-- The invariant the dedup rule actually maintains: pairwise, the
external_ids differ whenever both are present, and the URLs differ
whenever both articles lack an external_id. -/
def dedupInvariant (store : List CanonicalArticle) : Prop :=
  store.Pairwise (fun a b =>
    (∀ e, a.external_id = some e → b.external_id ≠ some e)
    ∧ (a.external_id = none → b.external_id = none → a.url ≠ b.url))

/-- A store produced by ingesting two articles that carry distinct
external_ids but the same URL: the dedup rule checks only external_ids for
them, so both are persisted. -/
def cexStore : List CanonicalArticle :=
  ingestRun []
    [{ external_id := some "ext-1", url := "https://example.com/story", title := "t1" },
     { external_id := some "ext-2", url := "https://example.com/story", title := "t2" }]

/-! ### Annotation output validation -/

structure AnalysisRecord where
  political_bias : Option String
  bias_confidence : Option ℚ
  tone : Option String
  tone_confidence : Option ℚ
  summary_ai : Option String
deriving DecidableEq

/-- Modelled from the spec: the Annotation Connector's output validation
(§4.3) is backend code absent from the frontend sources. political_bias
and tone must be one of the fixed enum values or explicitly null, the
confidences must lie in [0, 1], and an invalid value is treated as null
for that field rather than rejecting the whole result. -/
def validateAnalysis (raw : AnalysisRecord) : AnalysisRecord :=
  { political_bias := raw.political_bias.bind
      (fun b => if b ∈ knownBiases then some b else none)
    bias_confidence := raw.bias_confidence.bind
      (fun c => if 0 ≤ c ∧ c ≤ 1 then some c else none)
    tone := raw.tone.bind
      (fun t => if t ∈ knownTones then some t else none)
    tone_confidence := raw.tone_confidence.bind
      (fun c => if 0 ≤ c ∧ c ≤ 1 then some c else none)
    summary_ai := raw.summary_ai }

/-! ### Ingestion mutual exclusion and the Header refresh button -/

structure OrchestratorState where
  activeRuns : Nat
deriving DecidableEq

inductive FetchNowOutcome where
  | started : FetchNowOutcome
  | rejected : FetchNowOutcome
deriving DecidableEq

/-- Modelled from the spec: the Ingestion Orchestrator (§4.2, §5) is
backend code absent from the frontend sources. A run — scheduled or
manual fetch-now — starts only when no run is active; while a run is in
progress the request is rejected/queued and the state is unchanged. -/
def startRun (s : OrchestratorState) : OrchestratorState × FetchNowOutcome :=
  if s.activeRuns = 0 then ({ activeRuns := s.activeRuns + 1 }, .started)
  else (s, .rejected)

inductive OrchEvent where
  | timerFire : OrchEvent
  | fetchNow : OrchEvent
  | runComplete : OrchEvent

def orchStep (s : OrchestratorState) : OrchEvent → OrchestratorState
  | .timerFire => (startRun s).1
  | .fetchNow => (startRun s).1
  | .runComplete => { activeRuns := s.activeRuns - 1 }

def runOrchestrator (evs : List OrchEvent) : OrchestratorState :=
  evs.foldl orchStep { activeRuns := 0 }

/-- The Header component's client state: `isRefreshing` from useState. -/
structure HeaderState where
  isRefreshing : Bool
deriving DecidableEq

/-- The refresh button's `disabled` attribute is exactly `isRefreshing`. -/
def refreshDisabled (s : HeaderState) : Bool :=
  s.isRefreshing

inductive HeaderEvent where
  | clickRefresh : HeaderEvent
  | settleTimeout : HeaderEvent

/-- Header event handling: a click on an enabled button issues one
fetch-now request and sets `isRefreshing` (onMutate); a click on a
disabled button does nothing; the settle timeout clears `isRefreshing`.
The second component counts requests issued by the event. -/
def headerStep (s : HeaderState) : HeaderEvent → HeaderState × Nat
  | .clickRefresh =>
    if refreshDisabled s then (s, 0) else ({ isRefreshing := true }, 1)
  | .settleTimeout => ({ isRefreshing := false }, 0)

end NewsBot

namespace NewsBot

/-- Claim C2: rendering analysis badges never errors on missing or unknown
fields: `getBiasClass` returns `badge-bias-center` for `null` and for any
string outside the five known bias values, `getToneClass` returns
`badge-tone-neutral` for `null` and for any string outside the four known
tone values, and for known enum values the corresponding badge class from
the lookup table is returned. -/
theorem badge_class_fallback :
    getBiasClass none = "badge-bias-center"
    ∧ getToneClass none = "badge-tone-neutral"
    ∧ (∀ b : String, b ∉ knownBiases → getBiasClass (some b) = "badge-bias-center")
    ∧ (∀ t : String, t ∉ knownTones → getToneClass (some t) = "badge-tone-neutral")
    ∧ (∀ b c : String, biasClasses b = some c → getBiasClass (some b) = c)
    ∧ (∀ t c : String, toneClasses t = some c → getToneClass (some t) = c) := by
  refine ⟨rfl, rfl, ?_, ?_, ?_, ?_⟩
  · intro b hb
    simp only [knownBiases, List.mem_cons, List.not_mem_nil, or_false, not_or] at hb
    obtain ⟨h1, h2, h3, h4, h5⟩ := hb
    by_cases he : b = ""
    · simp [getBiasClass, he]
    · simp [getBiasClass, he, biasClasses, h1, h2, h3, h4, h5]
  · intro t ht
    simp only [knownTones, List.mem_cons, List.not_mem_nil, or_false, not_or] at ht
    obtain ⟨h1, h2, h3, h4⟩ := ht
    by_cases he : t = ""
    · simp [getToneClass, he]
    · simp [getToneClass, he, toneClasses, h1, h2, h3, h4]
  · intro b c h
    have hne : b ≠ "" := by
      intro he
      subst he
      simp [biasClasses] at h
    simp [getBiasClass, hne, h]
  · intro t c h
    have hne : t ≠ "" := by
      intro he
      subst he
      simp [toneClasses] at h
    simp [getToneClass, hne, h]

/-- Witness for C2 at concrete unknown values. -/
theorem badge_class_fallback_witness :
    ("unknown_value" ∉ knownBiases ∧ getBiasClass (some "unknown_value") = "badge-bias-center")
    ∧ ("unknown_value" ∉ knownTones ∧ getToneClass (some "unknown_value") = "badge-tone-neutral") :=
  ⟨⟨by decide, badge_class_fallback.2.2.1 "unknown_value" (by decide)⟩,
   ⟨by decide, badge_class_fallback.2.2.2.1 "unknown_value" (by decide)⟩⟩

/-- Claim C7: `parseUTCDate` appends a `Z` (interpreting the string as UTC)
exactly when the string does not end with `Z`, contains no `+`, and has no
`-` at character index 10 or later; every other string is passed to the
`Date` constructor unchanged. -/
theorem parseUTCDate_utc_normalization (s : String) :
    ((¬ jsEndsWith s "Z" = true
        ∧ (∀ c ∈ s.toList, c ≠ '+')
        ∧ (∀ i, i < s.toList.length → 10 ≤ i → s.toList.get? i ≠ some '-'))
      → parseUTCDate s = s ++ "Z")
    ∧ ((jsEndsWith s "Z" = true
        ∨ '+' ∈ s.toList
        ∨ ∃ i, 10 ≤ i ∧ s.toList.get? i = some '-')
      → parseUTCDate s = s) := by
  constructor
  · rintro ⟨h1, h2, h3⟩
    have hz : jsEndsWith s "Z" = false := by
      rcases hb : jsEndsWith s "Z" with _ | _
      · rfl
      · exact absurd hb h1
    have hplus : s.toList.contains '+' = false := by
      rw [List.contains_eq_any_beq, List.any_eq_false]
      intro c hc
      simpa using fun he => (h2 c hc) he.symm
    have hdash : (s.toList.drop 10).contains '-' = false := by
      rw [List.contains_eq_any_beq, List.any_eq_false]
      intro c hc
      simp only [beq_iff_eq]
      intro he
      subst he
      obtain ⟨i, hi⟩ := List.mem_iff_get?.mp hc
      rw [List.get?_drop] at hi
      have hlt : 10 + i < s.toList.length := by
        by_contra hge
        rw [List.get?_eq_none.mpr (by omega)] at hi
        exact Option.noConfusion hi
      exact h3 (10 + i) hlt (by omega) hi
    unfold parseUTCDate
    rw [if_pos]
    rw [hz, hplus, hdash]
    rfl
  · intro h
    unfold parseUTCDate
    rw [if_neg]
    intro hcond
    simp only [Bool.and_eq_true, Bool.not_eq_true'] at hcond
    obtain ⟨⟨hz, hplus⟩, hdash⟩ := hcond
    rcases h with h | h | ⟨i, hi10, hig⟩
    · rw [h] at hz
      exact Bool.noConfusion hz
    · rw [List.contains_eq_any_beq, List.any_eq_false] at hplus
      simpa using hplus '+' h
    · rw [List.contains_eq_any_beq, List.any_eq_false] at hdash
      have hmem : '-' ∈ s.toList.drop 10 := by
        apply List.mem_iff_get?.mpr
        exact ⟨i - 10, by rw [List.get?_drop, show 10 + (i - 10) = i by omega]; exact hig⟩
      simpa using hdash '-' hmem

/-- Witness for C7: a timezone-less timestamp gets the `Z` suffix, and a
string already ending in `Z` is left unchanged. -/
theorem parseUTCDate_utc_normalization_witness :
    parseUTCDate "2024-01-02T03:04:05" = "2024-01-02T03:04:05Z"
    ∧ parseUTCDate "2024-01-02T03:04:05Z" = "2024-01-02T03:04:05Z" :=
  ⟨(parseUTCDate_utc_normalization "2024-01-02T03:04:05").1
      ⟨by decide, by decide, by decide⟩,
   (parseUTCDate_utc_normalization "2024-01-02T03:04:05Z").2 (Or.inl (by decide))⟩

/-- Claim C5: `getSpectrumPosition` maps a bias score s to ((s + 2) / 4) * 100,
is monotone increasing, sends -2 to 0, 0 to 50 and +2 to 100, maps every
score in [-2, 2] into [0, 100], and the bubble's left offset clamps the
position into [5, 95]. -/
theorem spectrum_position_spec :
    getSpectrumPosition (-2) = 0
    ∧ getSpectrumPosition 0 = 50
    ∧ getSpectrumPosition 2 = 100
    ∧ (∀ a b : ℚ, a < b → getSpectrumPosition a < getSpectrumPosition b)
    ∧ (∀ s : ℚ, -2 ≤ s → s ≤ 2 →
        0 ≤ getSpectrumPosition s ∧ getSpectrumPosition s ≤ 100)
    ∧ (∀ s : ℚ, 5 ≤ bubbleLeftPercent (getSpectrumPosition s)
        ∧ bubbleLeftPercent (getSpectrumPosition s) ≤ 95) := by
  have key : ∀ x : ℚ, getSpectrumPosition x = 25 * x + 50 := by
    intro x
    unfold getSpectrumPosition
    ring
  refine ⟨by norm_num [key], by norm_num [key], by norm_num [key], ?_, ?_, ?_⟩
  · intro a b hab
    rw [key, key]
    linarith
  · intro s h1 h2
    rw [key]
    constructor <;> linarith
  · intro s
    unfold bubbleLeftPercent
    constructor
    · exact le_max_left 5 _
    · exact max_le (by norm_num) (min_le_left 95 _)

/-- Witness for C5 at concrete scores. -/
theorem spectrum_position_spec_witness :
    getSpectrumPosition 0 < getSpectrumPosition 1
    ∧ (0 ≤ getSpectrumPosition 1 ∧ getSpectrumPosition 1 ≤ 100) :=
  ⟨spectrum_position_spec.2.2.2.1 0 1 (by norm_num),
   spectrum_position_spec.2.2.2.2.1 1 (by norm_num) (by norm_num)⟩

/-- Claim C6: when loading has finished and the filtered article list is
empty, `ArticleList` renders the explicit empty-state message
("No se encontraron noticias") and nothing else: no result counter,
article cards or pagination controls. -/
theorem article_list_empty_state (articles : List FArticle)
    (total page totalPages : Nat) (hempty : articles.length = 0) :
    renderArticleList articles total page totalPages false
      = ArticleListView.emptyState "No se encontraron noticias"
          "Intenta ajustar los filtros o realizar una nueva búsqueda" := by
  have h : articles = [] := List.length_eq_zero.mp hempty
  subst h
  rfl

/-- Witness for C6 on the concrete empty list. -/
theorem article_list_empty_state_witness :
    ([] : List FArticle).length = 0
    ∧ renderArticleList [] 0 1 3 false
        = ArticleListView.emptyState "No se encontraron noticias"
            "Intenta ajustar los filtros o realizar una nueva búsqueda" :=
  ⟨rfl, article_list_empty_state [] 0 1 3 rfl⟩

/-- Claim C8: whatever time-window value the Facts page selector holds, the
request issued to the server is identical — the page passes only an
`hours` property, which `getFacts` never serializes, so the `GET /facts`
query string is empty and independent of the selected window. -/
theorem facts_hours_ignored :
    (∀ h1 h2 : Nat, factsPageQuery h1 = factsPageQuery h2)
    ∧ (∀ h : Nat, factsPageQuery h = []) := by
  constructor
  · intro h1 h2
    rfl
  · intro h
    rfl

/-- Claim C9: for a current page p and total page count T with 1 ≤ p ≤ T and
T ≥ 2, the pagination widget renders exactly min(5, T) page-number buttons
forming a block of consecutive integers inside [1, T] that contains p, the
Previous button is disabled iff p ≤ 1, and the Next button is disabled iff
p ≥ T. -/
theorem pagination_window_spec (p T : Nat) (h1 : 1 ≤ p) (h2 : p ≤ T) (h3 : 2 ≤ T) :
    ∃ s : Nat, 1 ≤ s
      ∧ pageWindow p T = (List.range (min 5 T)).map (fun i => s + i)
      ∧ (pageWindow p T).length = min 5 T
      ∧ (∀ n ∈ pageWindow p T, 1 ≤ n ∧ n ≤ T)
      ∧ p ∈ pageWindow p T
      ∧ (prevDisabled p = true ↔ p ≤ 1)
      ∧ (nextDisabled p T = true ↔ T ≤ p) := by
  have hdis : (prevDisabled p = true ↔ p ≤ 1) ∧ (nextDisabled p T = true ↔ T ≤ p) := by
    constructor <;> simp [prevDisabled, nextDisabled]
  have key : ∀ s : Nat, 1 ≤ s → s ≤ p → p < s + min 5 T → s + min 5 T ≤ T + 1 →
      pageWindow p T = (List.range (min 5 T)).map (fun i => s + i) →
      ∃ s : Nat, 1 ≤ s
        ∧ pageWindow p T = (List.range (min 5 T)).map (fun i => s + i)
        ∧ (pageWindow p T).length = min 5 T
        ∧ (∀ n ∈ pageWindow p T, 1 ≤ n ∧ n ≤ T)
        ∧ p ∈ pageWindow p T
        ∧ (prevDisabled p = true ↔ p ≤ 1)
        ∧ (nextDisabled p T = true ↔ T ≤ p) := by
    intro s hs1 hsp hps hsT hmap
    refine ⟨s, hs1, hmap, ?_, ?_, ?_, hdis.1, hdis.2⟩
    · rw [hmap]
      simp
    · rw [hmap]
      intro n hn
      simp only [List.mem_map, List.mem_range] at hn
      obtain ⟨i, hi, rfl⟩ := hn
      omega
    · rw [hmap]
      simp only [List.mem_map, List.mem_range]
      refine ⟨p - s, ?_, ?_⟩ <;> omega
  by_cases hT5 : T ≤ 5
  · refine key 1 le_rfl h1 (by omega) (by omega) ?_
    unfold pageWindow
    apply List.map_congr_left
    intro i _
    rw [if_pos hT5]
    omega
  · by_cases hp3 : p ≤ 3
    · refine key 1 le_rfl h1 (by omega) (by omega) ?_
      unfold pageWindow
      apply List.map_congr_left
      intro i _
      rw [if_neg hT5, if_pos hp3]
      omega
    · by_cases hpT : T - 2 ≤ p
      · refine key (T - 4) (by omega) (by omega) (by omega) (by omega) ?_
        unfold pageWindow
        apply List.map_congr_left
        intro i _
        rw [if_neg hT5, if_neg hp3, if_pos hpT]
      · refine key (p - 2) (by omega) (by omega) (by omega) (by omega) ?_
        unfold pageWindow
        apply List.map_congr_left
        intro i _
        rw [if_neg hT5, if_neg hp3, if_neg hpT]

/-- Witness for C9 at page 2 of 7. -/
theorem pagination_window_spec_witness :
    ∃ s : Nat, 1 ≤ s
      ∧ pageWindow 2 7 = (List.range (min 5 7)).map (fun i => s + i)
      ∧ (pageWindow 2 7).length = min 5 7
      ∧ (∀ n ∈ pageWindow 2 7, 1 ≤ n ∧ n ≤ 7)
      ∧ 2 ∈ pageWindow 2 7
      ∧ (prevDisabled 2 = true ↔ 2 ≤ 1)
      ∧ (nextDisabled 2 7 = true ↔ 7 ≤ 2) :=
  pagination_window_spec 2 7 (by decide) (by decide) (by decide)

/-- Claim C10: starting from index 0, every sequence of carousel navigation
events (arrow keys, prev/next buttons, swipes) keeps the Facts carousel
index within [0, facts.length - 1] whenever the facts list is non-empty. -/
theorem carousel_index_bounds (len : Int) (hlen : 1 ≤ len)
    (evs : List CarouselEvent) :
    0 ≤ runCarousel len evs ∧ runCarousel len evs ≤ len - 1 := by
  suffices h : ∀ (l : List CarouselEvent) (i : Int), 0 ≤ i → i ≤ len - 1 →
      0 ≤ l.foldl (carouselStep len) i ∧ l.foldl (carouselStep len) i ≤ len - 1 by
    exact h evs 0 le_rfl (by omega)
  intro l
  induction l with
  | nil =>
    intro i hi0 hi1
    exact ⟨hi0, hi1⟩
  | cons e rest ih =>
    intro i hi0 hi1
    have hmax : 0 ≤ max 0 (i - 1) ∧ max 0 (i - 1) ≤ len - 1 :=
      ⟨le_max_left 0 _, max_le (by omega) (by omega)⟩
    have hmin : 0 ≤ min (len - 1) (i + 1) ∧ min (len - 1) (i + 1) ≤ len - 1 :=
      ⟨le_min (by omega) (by omega), min_le_left _ _⟩
    have hstep : 0 ≤ carouselStep len i e ∧ carouselStep len i e ≤ len - 1 := by
      cases e with
      | arrowLeft => exact hmax
      | arrowRight => exact hmin
      | prevClick => exact hmax
      | nextClick => exact hmin
      | swipe sx ex =>
        simp only [carouselStep]
        split_ifs
        · exact hmin
        · exact hmax
        · exact ⟨hi0, hi1⟩
    exact ih (carouselStep len i e) hstep.1 hstep.2

/-- Witness for C10: a concrete event sequence over a three-item list. -/
theorem carousel_index_bounds_witness :
    0 ≤ runCarousel 3 [CarouselEvent.arrowRight, CarouselEvent.swipe 100 0,
        CarouselEvent.prevClick]
    ∧ runCarousel 3 [CarouselEvent.arrowRight, CarouselEvent.swipe 100 0,
        CarouselEvent.prevClick] ≤ 3 - 1 :=
  carousel_index_bounds 3 (by decide)
    [CarouselEvent.arrowRight, CarouselEvent.swipe 100 0, CarouselEvent.prevClick]

/-- Counterexample for C1: a reachable store holds two articles with the
same URL, because the dedup rule checks only external_ids when an
external_id is present. -/
theorem url_uniqueness_counterexample :
    ReachableStore cexStore ∧ ¬ claimedUnique cexStore := by
  constructor
  · exact ReachableStore.run [] _ ReachableStore.empty
  · intro h
    have hstore : cexStore
        = [{ external_id := some "ext-1", url := "https://example.com/story", title := "t1" },
           { external_id := some "ext-2", url := "https://example.com/story", title := "t2" }] := by
      decide
    rw [hstore] at h
    unfold claimedUnique at h
    have hrel := (List.pairwise_cons.mp h).1 _ (List.mem_cons_self _ _)
    exact hrel.2 rfl

/-- Dedup preserves the maintained invariant across one article. -/
theorem ingestArticle_dedupInvariant (st : List CanonicalArticle)
    (a : CanonicalArticle) (hst : dedupInvariant st) :
    dedupInvariant (ingestArticle st a) := by
  unfold ingestArticle
  split_ifs with hdup
  · exact hst
  · unfold dedupInvariant at hst ⊢
    rw [List.pairwise_append]
    refine ⟨hst, List.pairwise_singleton _ _, ?_⟩
    intro b hb c hc
    have hca : c = a := by simpa using hc
    rw [hca]
    rcases ha : a.external_id with _ | e'
    · refine ⟨?_, ?_⟩
      · intro e _ hae
        exact Option.noConfusion hae
      · intro _ _ hurl
        apply hdup
        unfold isDuplicate
        rw [ha]
        show (st.any fun x => x.url == a.url) = true
        rw [List.any_eq_true]
        exact ⟨b, hb, by simp [hurl]⟩
    · refine ⟨?_, ?_⟩
      · intro e hbe hae
        apply hdup
        unfold isDuplicate
        rw [ha]
        show (st.any fun x => x.external_id == some e') = true
        rw [List.any_eq_true]
        refine ⟨b, hb, ?_⟩
        rw [hbe, ← Option.some.inj hae]
        simp
      · intro _ hanone
        exact Option.noConfusion hanone

/-- Dedup preserves the maintained invariant across a whole batch. -/
theorem ingestRun_dedupInvariant (batch : List CanonicalArticle) :
    ∀ st : List CanonicalArticle, dedupInvariant st →
      dedupInvariant (ingestRun st batch) := by
  induction batch with
  | nil =>
    intro st hst
    exact hst
  | cons a rest ih =>
    intro st hst
    exact ih _ (ingestArticle_dedupInvariant st a hst)

/-- Claim C1 (amended): in every reachable Article Store, no two stored
Articles share the same external_id when both are present, and no two
stored Articles that both lack an external_id share the same URL;
unconditional URL uniqueness does not hold, because an incoming article
carrying a fresh external_id is never checked against stored URLs. -/
theorem store_dedup_invariant (store : List CanonicalArticle)
    (h : ReachableStore store) : dedupInvariant store := by
  induction h with
  | empty => exact List.Pairwise.nil
  | run st batch _ ih => exact ingestRun_dedupInvariant batch st ih

/-- Witness for C1 on a concrete reachable store. -/
theorem store_dedup_invariant_witness :
    ReachableStore cexStore ∧ dedupInvariant cexStore :=
  ⟨ReachableStore.run [] _ ReachableStore.empty,
   store_dedup_invariant cexStore (ReachableStore.run [] _ ReachableStore.empty)⟩

/-- Claim C4: every validated analysis satisfies the enum and range
constraints — political_bias is one of the five known values or null, tone
one of the four known values or null, confidences null or in [0, 1] — and
an invalid value yields null for the affected field while the rest of the
record (here the summary) is written unchanged, never a rejected write. -/
theorem analysis_validation (raw : AnalysisRecord) :
    ((validateAnalysis raw).political_bias = none
      ∨ ∃ b ∈ knownBiases, (validateAnalysis raw).political_bias = some b)
    ∧ ((validateAnalysis raw).tone = none
      ∨ ∃ t ∈ knownTones, (validateAnalysis raw).tone = some t)
    ∧ (∀ c, (validateAnalysis raw).bias_confidence = some c → 0 ≤ c ∧ c ≤ 1)
    ∧ (∀ c, (validateAnalysis raw).tone_confidence = some c → 0 ≤ c ∧ c ≤ 1)
    ∧ (∀ b, raw.political_bias = some b → b ∉ knownBiases →
        (validateAnalysis raw).political_bias = none)
    ∧ (∀ t, raw.tone = some t → t ∉ knownTones →
        (validateAnalysis raw).tone = none)
    ∧ (validateAnalysis raw).summary_ai = raw.summary_ai := by
  refine ⟨?_, ?_, ?_, ?_, ?_, ?_, rfl⟩
  · rcases hpb : raw.political_bias with _ | b
    · left
      simp [validateAnalysis, hpb]
    · by_cases hb : b ∈ knownBiases
      · right
        exact ⟨b, hb, by simp [validateAnalysis, hpb, hb]⟩
      · left
        simp [validateAnalysis, hpb, hb]
  · rcases hto : raw.tone with _ | t
    · left
      simp [validateAnalysis, hto]
    · by_cases ht : t ∈ knownTones
      · right
        exact ⟨t, ht, by simp [validateAnalysis, hto, ht]⟩
      · left
        simp [validateAnalysis, hto, ht]
  · intro c hc
    rcases hbc : raw.bias_confidence with _ | c0
    · simp [validateAnalysis, hbc] at hc
    · simp only [validateAnalysis, hbc, Option.some_bind] at hc
      by_cases hin : 0 ≤ c0 ∧ c0 ≤ 1
      · rw [if_pos hin] at hc
        obtain rfl : c0 = c := Option.some.inj hc
        exact hin
      · rw [if_neg hin] at hc
        exact Option.noConfusion hc
  · intro c hc
    rcases htc : raw.tone_confidence with _ | c0
    · simp [validateAnalysis, htc] at hc
    · simp only [validateAnalysis, htc, Option.some_bind] at hc
      by_cases hin : 0 ≤ c0 ∧ c0 ≤ 1
      · rw [if_pos hin] at hc
        obtain rfl : c0 = c := Option.some.inj hc
        exact hin
      · rw [if_neg hin] at hc
        exact Option.noConfusion hc
  · intro b hpb hb
    simp [validateAnalysis, hpb, hb]
  · intro t hto ht
    simp [validateAnalysis, hto, ht]

/-- Witness for C4 at the spec's scenario: a model output whose tone is
the invalid string "unknown_value" is stored with tone null. -/
theorem analysis_validation_witness :
    (validateAnalysis
        { political_bias := some "left", bias_confidence := some (1 / 2),
          tone := some "unknown_value", tone_confidence := some (3 / 4),
          summary_ai := some "resumen" }).tone = none :=
  (analysis_validation
      { political_bias := some "left", bias_confidence := some (1 / 2),
        tone := some "unknown_value", tone_confidence := some (3 / 4),
        summary_ai := some "resumen" }).2.2.2.2.2.1 "unknown_value" rfl (by decide)

/-- Claim C3: at most one ingestion run is ever active — a fetch-now
request arriving while a run is in progress is rejected and leaves the
orchestrator unchanged — and in the client, while a manual refresh is in
flight the trigger button is disabled, so a click issues no second
request and changes nothing. -/
theorem single_ingestion_run :
    (∀ evs : List OrchEvent, (runOrchestrator evs).activeRuns ≤ 1)
    ∧ (∀ s : OrchestratorState, 1 ≤ s.activeRuns →
        (startRun s).2 = FetchNowOutcome.rejected ∧ (startRun s).1 = s)
    ∧ (∀ s : HeaderState, s.isRefreshing = true →
        refreshDisabled s = true
        ∧ (headerStep s HeaderEvent.clickRefresh).2 = 0
        ∧ (headerStep s HeaderEvent.clickRefresh).1 = s) := by
  have hstart : ∀ s : OrchestratorState, s.activeRuns ≤ 1 →
      ((startRun s).1).activeRuns ≤ 1 := by
    intro s hs
    unfold startRun
    split_ifs with h0
    · simp [h0]
    · exact hs
  refine ⟨?_, ?_, ?_⟩
  · intro evs
    suffices h : ∀ (l : List OrchEvent) (s : OrchestratorState), s.activeRuns ≤ 1 →
        (l.foldl orchStep s).activeRuns ≤ 1 by
      exact h evs { activeRuns := 0 } (by decide)
    intro l
    induction l with
    | nil =>
      intro s hs
      exact hs
    | cons e rest ih =>
      intro s hs
      apply ih
      cases e with
      | timerFire => exact hstart s hs
      | fetchNow => exact hstart s hs
      | runComplete =>
        show ({ activeRuns := s.activeRuns - 1 } : OrchestratorState).activeRuns ≤ 1
        simp only
        omega
  · intro s hs
    unfold startRun
    rw [if_neg (by omega)]
    exact ⟨rfl, rfl⟩
  · intro s hs
    have hd : refreshDisabled s = true := hs
    refine ⟨hd, ?_, ?_⟩ <;> simp [headerStep, hd]

/-- Witness for C3: two immediate fetch-now requests never produce two
active runs, a busy orchestrator rejects a request, and a refreshing
Header ignores a click. -/
theorem single_ingestion_run_witness :
    (runOrchestrator [OrchEvent.fetchNow, OrchEvent.fetchNow]).activeRuns ≤ 1
    ∧ (1 ≤ (OrchestratorState.mk 1).activeRuns
        ∧ (startRun (OrchestratorState.mk 1)).2 = FetchNowOutcome.rejected
        ∧ (startRun (OrchestratorState.mk 1)).1 = OrchestratorState.mk 1)
    ∧ ((HeaderState.mk true).isRefreshing = true
        ∧ refreshDisabled (HeaderState.mk true) = true
        ∧ (headerStep (HeaderState.mk true) HeaderEvent.clickRefresh).2 = 0
        ∧ (headerStep (HeaderState.mk true) HeaderEvent.clickRefresh).1 = HeaderState.mk true) :=
  ⟨single_ingestion_run.1 [OrchEvent.fetchNow, OrchEvent.fetchNow],
   ⟨by decide,
    (single_ingestion_run.2.1 (OrchestratorState.mk 1) (by decide)).1,
    (single_ingestion_run.2.1 (OrchestratorState.mk 1) (by decide)).2⟩,
   ⟨rfl,
    (single_ingestion_run.2.2 (HeaderState.mk true) rfl).1,
    (single_ingestion_run.2.2 (HeaderState.mk true) rfl).2.1,
    (single_ingestion_run.2.2 (HeaderState.mk true) rfl).2.2⟩⟩

end NewsBot
